import Mathlib

/-!
Verification development for the easy_db SQL front end
(`src/error.rs`, `src/sql/parser/lexer.rs`, `src/sql/parser/ast.rs`).

The Rust source is shallowly embedded: the lexer is a pure step function on
the remaining character list (mirroring `Peekable<Chars>`), and the parser is
a family of pure functions on the remaining stream of lexer items
(mirroring `Peekable<Lexer>` whose items are `Result<Token, EasyDbError>`).
-/

namespace EasyDb

/-- Error model from `src/error.rs`: `EasyDbError` with the three kinds
`Internal`, `Parse` and `Value`, each carrying a message string. -/
inductive EasyDbError where
  | internal (msg : String)
  | parse (msg : String)
  | value (msg : String)
deriving DecidableEq

/-- `src/error.rs`: `EasyDbResult<T> = Result<T, EasyDbError>`. -/
abbrev EasyDbResult (α : Type) := Except EasyDbError α

/-- Keyword enumeration from `src/sql/parser/lexer.rs` (enum `Keyword`). -/
inductive Keyword where
  | and
  | create
  | drop
  | table
  | bool
  | boolean
  | char
  | double
  | float
  | int
  | integer
  | string
  | text
  | varchar
  | primary
  | key
  | null
  | not
  | default
  | unique
  | index
  | references
deriving DecidableEq

/-- Rust's `str::to_uppercase` as used by `Keyword::from_str`: uppercase
every character (the keyword vocabulary is ASCII, where Rust's Unicode
uppercasing and `Char.toUpper` agree). -/
def toUppercase (s : String) : String :=
  String.mk (s.data.map Char.toUpper)

/-- `Keyword::from_str` from `src/sql/parser/lexer.rs` lines 110-115,
exactly as written: the uppercased identifier is matched against the single
arm `"AND"`; every other spelling falls through to `None`. -/
def Keyword.fromStr (ident : String) : Option Keyword :=
  match toUppercase ident with
  | "AND" => some Keyword.and
  | _ => none

/-- `Keyword::to_str` from `src/sql/parser/lexer.rs` lines 117-121. The
source match lists only the `And => "AND"` arm and is non-exhaustive over the
22-variant enum (the file does not compile as given); it is totalized here by
the canonical uppercase spelling of each variant, which is what the spec
says keyword tokens display ("keyword tokens display their canonical
uppercase spelling"). -/
def Keyword.toStr : Keyword → String
  | .and => "AND"
  | .create => "CREATE"
  | .drop => "DROP"
  | .table => "TABLE"
  | .bool => "BOOL"
  | .boolean => "BOOLEAN"
  | .char => "CHAR"
  | .double => "DOUBLE"
  | .float => "FLOAT"
  | .int => "INT"
  | .integer => "INTEGER"
  | .string => "STRING"
  | .text => "TEXT"
  | .varchar => "VARCHAR"
  | .primary => "PRIMARY"
  | .key => "KEY"
  | .null => "NULL"
  | .not => "NOT"
  | .default => "DEFAULT"
  | .unique => "UNIQUE"
  | .index => "INDEX"
  | .references => "REFERENCES"

/-- Token model from `src/sql/parser/lexer.rs` (enum `Token`). -/
inductive Token where
  | number (s : String)
  | string (s : String)
  | ident (s : String)
  | keyword (k : Keyword)
  | period
  | equal
  | greaterThan
  | lessThan
  | plus
  | minus
  | asterisk
  | slash
  | caret
  | percent
  | exclamation
  | question
  | openParen
  | closeParen
  | comma
  | semicolon
  | greaterThanOrEqual
  | lessThanOrEqual
  | lessOrGreaterThan
  | notEqual
deriving DecidableEq

/-- `impl Display for Token` from `src/sql/parser/lexer.rs` lines 35-64. -/
def Token.display : Token → String
  | .number n => n
  | .string s => s
  | .ident s => s
  | .keyword k => k.toStr
  | .period => "."
  | .equal => "="
  | .greaterThan => ">"
  | .greaterThanOrEqual => ">="
  | .lessThan => "<"
  | .lessThanOrEqual => "<="
  | .lessOrGreaterThan => "<>"
  | .plus => "+"
  | .minus => "-"
  | .asterisk => "*"
  | .slash => "/"
  | .caret => "^"
  | .percent => "%"
  | .exclamation => "!"
  | .notEqual => "!="
  | .question => "?"
  | .openParen => "("
  | .closeParen => ")"
  | .comma => ","
  | .semicolon => ";"

/-- Modelled from the spec: `DataType` comes from `src/sql/types`, which is
not among the sources; the spec says a column's datatype is "one of
Boolean/Integer/Float/String — the grammar's column-type keywords collapse
onto exactly these four semantic types", and `ast.rs` names exactly the
variants `Boolean`, `Integer`, `Float`, `String`. -/
inductive DataType where
  | boolean
  | integer
  | float
  | string
deriving DecidableEq

/-- `Column` record from `src/sql/parser/ast.rs` lines 73-84 (the `default`
field is commented out in the source). -/
structure Column where
  name : String
  datatype : DataType
  primary_key : Bool
  nullable : Option Bool
  unique : Bool
  index : Bool
  references : Option String
deriving DecidableEq

/-- `Statement` from `src/sql/parser/ast.rs` lines 11-46: only `CreateTable`
and `DropTable` are live (all other variants are commented out). -/
inductive Statement where
  | createTable (name : String) (columns : List Column)
  | dropTable (name : String)
deriving DecidableEq

/-! ## Lexer (`src/sql/parser/lexer.rs`)

The lexer state `Peekable<Chars>` is embedded as the list of remaining
characters. -/

/-- `Lexer::skip_whitespace` (line 170-172): `next_while(is_whitespace)`. -/
def skipWhitespace (cs : List Char) : List Char :=
  cs.dropWhile Char.isWhitespace

/-- `Lexer::next_if` (lines 174-177): consume the next character iff it
satisfies the predicate. -/
def nextIf (p : Char → Bool) : List Char → Option Char × List Char
  | [] => (none, [])
  | c :: cs => if p c then (some c, cs) else (none, c :: cs)

/-- The `if let Some(sep) = self.next_if(|c| c == '.')` block of
`Lexer::scan_number` (lines 192-198): an optional decimal point followed by
a run of digits, appended to the digits scanned so far. -/
def scanFraction (num : List Char) (cs : List Char) : List Char × List Char :=
  match nextIf (fun c => decide (c = '.')) cs with
  | (some sep, csA) =>
      (num ++ sep :: csA.takeWhile Char.isDigit, csA.dropWhile Char.isDigit)
  | (none, csA) => (num, csA)

/-- The `if let Some(exp) = self.next_if(|c| c == 'e' || c == 'E')` block of
`Lexer::scan_number` (lines 200-208): an optional exponent marker with an
optional sign and a run of digits, appended to the text scanned so far. -/
def scanExponent (num : List Char) (cs : List Char) : List Char × List Char :=
  match nextIf (fun c => decide (c = 'e' ∨ c = 'E')) cs with
  | (some ex, csB) =>
    match nextIf (fun c => decide (c = '+' ∨ c = '-')) csB with
    | (sgn, csC) =>
        (num ++ ex :: (sgn.toList ++ csC.takeWhile Char.isDigit),
          csC.dropWhile Char.isDigit)
  | (none, csB) => (num, csB)

/-- `Lexer::scan_number` (lines 189-211): a run of decimal digits, the
optional fraction, the optional exponent; the token carries the exact
matched text. -/
def scanNumber (cs : List Char) : Option Token × List Char :=
  let num := cs.takeWhile Char.isDigit
  let cs1 := cs.dropWhile Char.isDigit
  if num.isEmpty then (none, cs1)
  else
    let fr := scanFraction num cs1
    let ex := scanExponent fr.1 fr.2
    (some (Token.number (String.mk ex.1)), ex.2)

/-- The single-character arm of `Lexer::scan_symbol` (lines 221-239). -/
def symbolOf : Char → Option Token
  | '.' => some Token.period
  | '=' => some Token.equal
  | '>' => some Token.greaterThan
  | '<' => some Token.lessThan
  | '+' => some Token.plus
  | '-' => some Token.minus
  | '*' => some Token.asterisk
  | '/' => some Token.slash
  | '^' => some Token.caret
  | '%' => some Token.percent
  | '!' => some Token.exclamation
  | '?' => some Token.question
  | '(' => some Token.openParen
  | ')' => some Token.closeParen
  | ',' => some Token.comma
  | ';' => some Token.semicolon
  | _ => none

/-- The `.map(|token| match token ...)` closure of `Lexer::scan_symbol`
(lines 240-265): greedy two-character combination for `!=`, `<>`, `<=`,
`>=`; every other token passes through unchanged. -/
def combineSymbol (token : Token) (rest : List Char) : Token × List Char :=
  match token with
  | Token.exclamation =>
    match nextIf (fun c => decide (c = '=')) rest with
    | (some _, rest2) => (Token.notEqual, rest2)
    | (none, rest2) => (Token.exclamation, rest2)
  | Token.lessThan =>
    match nextIf (fun c => decide (c = '>')) rest with
    | (some _, rest2) => (Token.lessOrGreaterThan, rest2)
    | (none, rest2) =>
      match nextIf (fun c => decide (c = '=')) rest2 with
      | (some _, rest3) => (Token.lessThanOrEqual, rest3)
      | (none, rest3) => (Token.lessThan, rest3)
  | Token.greaterThan =>
    match nextIf (fun c => decide (c = '=')) rest with
    | (some _, rest2) => (Token.greaterThanOrEqual, rest2)
    | (none, rest2) => (Token.greaterThan, rest2)
  | t => (t, rest)

/-- `Lexer::scan_symbol` (lines 220-266): one-character token lookup, then
the greedy two-character combination. -/
def scanSymbol (cs : List Char) : Option Token × List Char :=
  match cs with
  | [] => (none, [])
  | c :: rest =>
    match symbolOf c with
    | none => (none, c :: rest)
    | some tok =>
      (some (combineSymbol tok rest).1, (combineSymbol tok rest).2)

/-- `Lexer::scan` (lines 158-168), exactly as written in the source: skip
whitespace, then dispatch on the peeked character.  Note the string-literal
arm (`scan_string`) and the identifier arm (`scan_ident`) are commented out
in the source, so only the digit dispatch and the symbol fallback remain. -/
def scan (cs : List Char) : EasyDbResult (Option Token) × List Char :=
  match skipWhitespace cs with
  | [] => (Except.ok none, [])
  | c :: rest =>
    if c.isDigit then
      (Except.ok (scanNumber (c :: rest)).1, (scanNumber (c :: rest)).2)
    else
      (Except.ok (scanSymbol (c :: rest)).1, (scanSymbol (c :: rest)).2)

/-- `impl Iterator for Lexer`, `next` (lines 135-148): a scan producing a
token yields `Some(Ok(token))`; a scan producing nothing yields `None` at end
of input, and otherwise `Some(Err(Parse("Unexpected character c")))` with the
offending character left unconsumed. -/
def lexerNext (cs : List Char) : Option (EasyDbResult Token) × List Char :=
  match scan cs with
  | (Except.ok (some t), cs2) => (some (Except.ok t), cs2)
  | (Except.ok none, cs2) =>
    match cs2 with
    | [] => (none, [])
    | c :: rest =>
      (some (Except.error (EasyDbError.parse ("Unexpected character " ++ String.mk [c]))),
        c :: rest)
  | (Except.error e, cs2) => (some (Except.error e), cs2)

/-- Iterating the lexer with explicit fuel, collecting the drawn items (an
item is drawn until the iterator reports `None`). -/
def lexList : List Char → Nat → List (EasyDbResult Token)
  | _, 0 => []
  | cs, n + 1 =>
    match lexerNext cs with
    | (none, _) => []
    | (some r, cs2) => r :: lexList cs2 n

/-- The item stream of `Lexer::new(s)`: since every `Ok` item consumes at
least one character, `s.length + 1` draws are enough to reach either the end
of the input or the first (self-repeating) error item. -/
def tokenize (s : String) : List (EasyDbResult Token) :=
  lexList s.data (s.data.length + 1)

/-! ## Parser (`src/sql/parser/ast.rs`)

The parser state `Peekable<Lexer>` is embedded as the list of remaining
lexer items (`Result<Token, EasyDbError>`).  The parser aborts at the first
error item it draws or peeks, so the lexer's self-repeating trailing error
is faithfully represented by a single trailing error item. -/

/-- One lexer item as the parser sees it. -/
abbrev LexItem := EasyDbResult Token

/-- `Parser::next` (lines 105-109): draw the next lexer item; end of the
stream is the Parse error "Unexpected end of input". -/
def pnext : List LexItem → EasyDbResult (Token × List LexItem)
  | [] => Except.error (EasyDbError.parse "Unexpected end of input")
  | Except.ok t :: rest => Except.ok (t, rest)
  | Except.error e :: _ => Except.error e

/-- `Parser::peek` (lines 147-149): look at the next item without
consuming it. -/
def ppeek : List LexItem → EasyDbResult (Option Token)
  | [] => Except.ok none
  | Except.ok t :: _ => Except.ok (some t)
  | Except.error e :: _ => Except.error e

/-- `Parser::next_if` (lines 112-115): consume the next token iff it is an
`Ok` token satisfying the predicate (a lexer error makes the peek fall back
to `None`, consuming nothing). -/
def pnextIf (p : Token → Bool) (ts : List LexItem) : Option Token × List LexItem :=
  match ts with
  | Except.ok t :: rest => if p t then (some t, rest) else (none, Except.ok t :: rest)
  | other => (none, other)

/-- `Parser::next_expect(Some(t))` (lines 129-139). -/
def pnextExpect (t : Token) (ts : List LexItem) : EasyDbResult (List LexItem) :=
  match pnext ts with
  | Except.error e => Except.error e
  | Except.ok (tok, rest) =>
    if tok = t then Except.ok rest
    else
      Except.error (EasyDbError.parse
        ("Expected token " ++ t.display ++ ", found " ++ tok.display))

/-- `Parser::next_expect(None)` (lines 140-144): require end of input. -/
def pnextExpectEnd (ts : List LexItem) : EasyDbResult Unit :=
  match ppeek ts with
  | Except.error e => Except.error e
  | Except.ok (some tok) =>
      Except.error (EasyDbError.parse ("Unexpected token " ++ tok.display))
  | Except.ok none => Except.ok ()

/-- `Parser::next_ident` (lines 174-182). -/
def pnextIdent (ts : List LexItem) : EasyDbResult (String × List LexItem) :=
  match pnext ts with
  | Except.error e => Except.error e
  | Except.ok (Token.ident s, rest) => Except.ok (s, rest)
  | Except.ok (tok, _) =>
      Except.error (EasyDbError.parse ("Expected identifier, got " ++ tok.display))

/-- The `while let Some(Token::Keyword(keyword)) = self.next_if_keyword()`
constraint loop of `Parser::parse_ddl_column` (lines 227-263).  The loop
consumes a keyword token and dispatches on it; any non-keyword item (or the
end of the stream, or a lexer error item) ends the loop without being
consumed.  The `Default` keyword (its arm is commented out in the source)
falls to the catch-all `Unexpected keyword` arm. -/
def columnLoop (col : Column) : List LexItem → EasyDbResult (Column × List LexItem)
  | Except.ok (Token.keyword k) :: rest =>
    match k with
    | Keyword.primary =>
      match rest with
      | [] => Except.error (EasyDbError.parse "Unexpected end of input")
      | Except.error e :: _ => Except.error e
      | Except.ok t :: rest2 =>
        if t = Token.keyword Keyword.key then
          columnLoop { col with primary_key := true } rest2
        else
          Except.error (EasyDbError.parse
            ("Expected token " ++ (Token.keyword Keyword.key).display ++
              ", found " ++ t.display))
    | Keyword.null =>
      match col.nullable with
      | some false =>
          Except.error (EasyDbError.value
            ("Column " ++ col.name ++ " can't be both not nullable and nullable"))
      | _ => columnLoop { col with nullable := some true } rest
    | Keyword.unique => columnLoop { col with unique := true } rest
    | Keyword.index => columnLoop { col with index := true } rest
    | Keyword.references =>
      match rest with
      | [] => Except.error (EasyDbError.parse "Unexpected end of input")
      | Except.error e :: _ => Except.error e
      | Except.ok (Token.ident name) :: rest2 =>
          columnLoop { col with references := some name } rest2
      | Except.ok t :: _ =>
          Except.error (EasyDbError.parse ("Expected identifier, got " ++ t.display))
    | Keyword.not =>
      match rest with
      | [] => Except.error (EasyDbError.parse "Unexpected end of input")
      | Except.error e :: _ => Except.error e
      | Except.ok t :: rest2 =>
        if t = Token.keyword Keyword.null then
          match col.nullable with
          | some true =>
              Except.error (EasyDbError.value
                ("Column " ++ col.name ++ " can't be both not nullable and nullable"))
          | _ => columnLoop { col with nullable := some false } rest2
        else
          Except.error (EasyDbError.parse
            ("Expected token " ++ (Token.keyword Keyword.null).display ++
              ", found " ++ t.display))
    | k => Except.error (EasyDbError.parse ("Unexpected keyword " ++ k.toStr))
  | ts => Except.ok (col, ts)

/-- The datatype match of `Parser::parse_ddl_column` (lines 206-218): the
ten type keywords collapse onto the four semantic datatypes; any other token
is rejected (the caller turns `none` into the source's
`Unexpected token` early return). -/
def datatypeOf : Token → Option DataType
  | Token.keyword Keyword.bool => some DataType.boolean
  | Token.keyword Keyword.boolean => some DataType.boolean
  | Token.keyword Keyword.char => some DataType.string
  | Token.keyword Keyword.double => some DataType.float
  | Token.keyword Keyword.float => some DataType.float
  | Token.keyword Keyword.int => some DataType.integer
  | Token.keyword Keyword.integer => some DataType.integer
  | Token.keyword Keyword.string => some DataType.string
  | Token.keyword Keyword.text => some DataType.string
  | Token.keyword Keyword.varchar => some DataType.string
  | _ => none

/-- `Parser::parse_ddl_column` (lines 203-266): column name, datatype
keyword (the ten type keywords collapse onto the four semantic datatypes),
then the constraint loop. -/
def parseDdlColumn (ts : List LexItem) : EasyDbResult (Column × List LexItem) :=
  match pnextIdent ts with
  | Except.error e => Except.error e
  | Except.ok (name, ts1) =>
    match pnext ts1 with
    | Except.error e => Except.error e
    | Except.ok (tok, ts2) =>
      match datatypeOf tok with
      | none => Except.error (EasyDbError.parse ("Unexpected token " ++ tok.display))
      | some dt =>
        columnLoop
          { name := name, datatype := dt, primary_key := false, nullable := none,
            unique := false, index := false, references := none } ts2

/-- `pnext` consumes exactly one item. -/
theorem pnext_ok_length {ts : List LexItem} {t : Token} {rest : List LexItem}
    (h : pnext ts = Except.ok (t, rest)) : rest.length < ts.length := by
  match ts with
  | [] => simp [pnext] at h
  | Except.ok t0 :: r => simp [pnext] at h; simp [h.2.symm]
  | Except.error e :: r => simp [pnext] at h

/-- `pnextIdent` consumes exactly one item. -/
theorem pnextIdent_ok_length {ts : List LexItem} {s : String} {rest : List LexItem}
    (h : pnextIdent ts = Except.ok (s, rest)) : rest.length < ts.length := by
  unfold pnextIdent at h
  match hp : pnext ts with
  | Except.error e => rw [hp] at h; simp at h
  | Except.ok (tok, r) =>
    rw [hp] at h
    match tok with
    | Token.ident s0 =>
      simp at h
      have := pnext_ok_length hp
      rw [← h.2]
      exact this
    | Token.number s0 => simp at h
    | Token.string s0 => simp at h
    | Token.keyword k => simp at h
    | Token.period => simp at h
    | Token.equal => simp at h
    | Token.greaterThan => simp at h
    | Token.lessThan => simp at h
    | Token.plus => simp at h
    | Token.minus => simp at h
    | Token.asterisk => simp at h
    | Token.slash => simp at h
    | Token.caret => simp at h
    | Token.percent => simp at h
    | Token.exclamation => simp at h
    | Token.question => simp at h
    | Token.openParen => simp at h
    | Token.closeParen => simp at h
    | Token.comma => simp at h
    | Token.semicolon => simp at h
    | Token.greaterThanOrEqual => simp at h
    | Token.lessThanOrEqual => simp at h
    | Token.lessOrGreaterThan => simp at h
    | Token.notEqual => simp at h

/-- `pnextIf` with a successful match consumes exactly one item. -/
theorem pnextIf_some_length {p : Token → Bool} {ts : List LexItem} {t : Token}
    {rest : List LexItem} (h : pnextIf p ts = (some t, rest)) :
    rest.length < ts.length := by
  match ts with
  | [] => simp [pnextIf] at h
  | Except.ok t0 :: r =>
    simp only [pnextIf] at h
    by_cases hp : p t0
    · simp [hp] at h; simp [h.2.symm]
    · simp [hp] at h
  | Except.error e :: r => simp [pnextIf] at h

/-- A successful constraint loop only consumes items. -/
theorem columnLoop_length_le :
    ∀ (col : Column) (ts : List LexItem) (col2 : Column) (ts2 : List LexItem),
      columnLoop col ts = Except.ok (col2, ts2) → ts2.length ≤ ts.length := by
  intro col ts
  induction col, ts using columnLoop.induct <;> intro col2 ts2 h <;>
    simp only [columnLoop] at h <;>
    (try split at h) <;>
    (try simp_all) <;>
    (try omega)

/-- A successful column parse strictly consumes items (at least the name and
datatype tokens). -/
theorem parseDdlColumn_length_lt {ts : List LexItem} {col : Column}
    {ts2 : List LexItem} (h : parseDdlColumn ts = Except.ok (col, ts2)) :
    ts2.length < ts.length := by
  unfold parseDdlColumn at h
  match hid : pnextIdent ts with
  | Except.error e => rw [hid] at h; simp at h
  | Except.ok (name, tsA) =>
    rw [hid] at h
    simp only at h
    match hnx : pnext tsA with
    | Except.error e => rw [hnx] at h; simp at h
    | Except.ok (tok, tsB) =>
      rw [hnx] at h
      simp only at h
      have h1 := pnextIdent_ok_length hid
      have h2 := pnext_ok_length hnx
      split at h
      · simp at h
      · have h3 := columnLoop_length_le _ _ _ _ h
        omega

/-- The one-or-more comma-separated column loop of
`Parser::parse_ddl_create_table` (lines 190-197): parse a column, then
continue iff a comma follows. -/
def createTableLoop (ts : List LexItem) : EasyDbResult (List Column × List LexItem) :=
  match hc : parseDdlColumn ts with
  | Except.error e => Except.error e
  | Except.ok (col, ts1) =>
    match hs : pnextIf (fun t => decide (t = Token.comma)) ts1 with
    | (some _, ts2) =>
      match createTableLoop ts2 with
      | Except.error e => Except.error e
      | Except.ok (cols, ts3) => Except.ok (col :: cols, ts3)
    | (none, ts2) => Except.ok ([col], ts2)
termination_by ts.length
decreasing_by
  have h1 := parseDdlColumn_length_lt hc
  have h2 := pnextIf_some_length hs
  omega

/-- `Parser::parse_ddl_create_table` (lines 186-201): table name, `(`,
one-or-more comma-separated columns, `)`. -/
def parseDdlCreateTable (ts : List LexItem) : EasyDbResult (Statement × List LexItem) :=
  match pnextIdent ts with
  | Except.error e => Except.error e
  | Except.ok (name, ts1) =>
    match pnextExpect Token.openParen ts1 with
    | Except.error e => Except.error e
    | Except.ok ts2 =>
      match createTableLoop ts2 with
      | Except.error e => Except.error e
      | Except.ok (columns, ts3) =>
        match pnextExpect Token.closeParen ts3 with
        | Except.error e => Except.error e
        | Except.ok ts4 => Except.ok (Statement.createTable name columns, ts4)

/-- `Parser::parse_ddl_drop_table` (lines 270-272): a single table-name
identifier. -/
def parseDdlDropTable (ts : List LexItem) : EasyDbResult (Statement × List LexItem) :=
  match pnextIdent ts with
  | Except.error e => Except.error e
  | Except.ok (name, ts1) => Except.ok (Statement.dropTable name, ts1)

/-- `Parser::parse_ddl` (lines 159-171): `CREATE TABLE` or `DROP TABLE`,
otherwise an `Unexpected token` Parse error. -/
def parseDdl (ts : List LexItem) : EasyDbResult (Statement × List LexItem) :=
  match pnext ts with
  | Except.error e => Except.error e
  | Except.ok (Token.keyword Keyword.create, ts1) =>
    match pnext ts1 with
    | Except.error e => Except.error e
    | Except.ok (Token.keyword Keyword.table, ts2) => parseDdlCreateTable ts2
    | Except.ok (tok, _) =>
        Except.error (EasyDbError.parse ("Unexpected token " ++ tok.display))
  | Except.ok (Token.keyword Keyword.drop, ts1) =>
    match pnext ts1 with
    | Except.error e => Except.error e
    | Except.ok (Token.keyword Keyword.table, ts2) => parseDdlDropTable ts2
    | Except.ok (tok, _) =>
        Except.error (EasyDbError.parse ("Unexpected token " ++ tok.display))
  | Except.ok (tok, _) =>
      Except.error (EasyDbError.parse ("Unexpected token " ++ tok.display))

/-- `Parser::parse_statement` (lines 151-157), exactly as written in the
source: the peeked token is dispatched to the DDL path only for the
`CREATE` keyword; every other token (the `DROP` keyword included) falls to
the `Unexpected token` arm, and an empty stream is
"Unexpected end of input". -/
def parseStatement (ts : List LexItem) : EasyDbResult (Statement × List LexItem) :=
  match ppeek ts with
  | Except.error e => Except.error e
  | Except.ok (some (Token.keyword Keyword.create)) => parseDdl ts
  | Except.ok (some tok) =>
      Except.error (EasyDbError.parse ("Unexpected token " ++ tok.display))
  | Except.ok none => Except.error (EasyDbError.parse "Unexpected end of input")

/-- `Parser::parse` (lines 97-102): one statement, an optional trailing
semicolon, then required end of input. -/
def parseTokens (ts : List LexItem) : EasyDbResult Statement :=
  match parseStatement ts with
  | Except.error e => Except.error e
  | Except.ok (st, ts1) =>
    let ts2 := (pnextIf (fun t => decide (t = Token.semicolon)) ts1).2
    match pnextExpectEnd ts2 with
    | Except.error e => Except.error e
    | Except.ok _ => Except.ok st

/-- End-to-end `Parser::new(query).parse()`: the parser drawing from the
lexer of the query text. -/
def parse (s : String) : EasyDbResult Statement :=
  parseTokens (tokenize s)

/-! ## Lexer iteration

`lexStateN cs n` is the lexer state after `n` draws; `lexReachesEnd cs`
says some draw returns `None` (the iterator reports end of input). -/

/-- The lexer state after `n` calls to `Iterator::next`. -/
def lexStateN (cs : List Char) : Nat → List Char
  | 0 => cs
  | n + 1 => (lexerNext (lexStateN cs n)).2

/-- The iteration eventually returns `None` (reaches end of input). -/
def lexReachesEnd (cs : List Char) : Prop :=
  ∃ n, (lexerNext (lexStateN cs n)).1 = none

/-! ## Spec-side number grammar

These two predicates transcribe the spec's sentence "consumes decimal
digits, then an optional `.` followed by more digits, then an optional
exponent marker (`e`/`E`) with optional sign and digits"; they are compared
against what `scan_number` produces. -/

/-- Follows the spec's words: the fraction part is either absent or a
decimal point followed by a run of digits. -/
def specFraction (fr : List Char) : Prop :=
  fr = [] ∨ ∃ ms, fr = '.' :: ms ∧ ms.all Char.isDigit = true

/-- Follows the spec's words: the exponent part is either absent or an
`e`/`E` marker, an optional sign, and a run of digits. -/
def specExponent (ex : List Char) : Prop :=
  ex = [] ∨ ∃ e sgn ms, ex = e :: (sgn ++ ms) ∧ (e = 'e' ∨ e = 'E') ∧
    (sgn = [] ∨ sgn = ['+'] ∨ sgn = ['-']) ∧ ms.all Char.isDigit = true

/-- The number-scan contract at one lexer draw: after the whitespace skip
the scan consumes a nonempty digit run, a spec-shaped fraction and a
spec-shaped exponent, and emits a single `Number` token carrying exactly the
consumed text, leaving exactly the unconsumed remainder. -/
def numberScanOk (cs : List Char) : Prop :=
  ∃ ds fr ex rest2,
    ds ≠ [] ∧ ds.all Char.isDigit = true ∧ specFraction fr ∧ specExponent ex ∧
    skipWhitespace cs = ds ++ fr ++ ex ++ rest2 ∧
    lexerNext cs = (some (Except.ok (Token.number (String.mk (ds ++ fr ++ ex)))), rest2)

/-! ## Helper lemmas about the lexer -/

theorem nextIf_eq_some {p : Char → Bool} {l : List Char} {c : Char} {r : List Char}
    (h : nextIf p l = (some c, r)) : l = c :: r ∧ p c = true := by
  match l with
  | [] => simp [nextIf] at h
  | a :: t =>
    simp only [nextIf] at h
    split at h
    · next hp =>
      obtain ⟨h1, h2⟩ := Prod.mk.injEq .. ▸ h
      injection h1 with h1
      subst h1; subst h2
      exact ⟨rfl, hp⟩
    · simp at h

theorem nextIf_eq_none {p : Char → Bool} {l : List Char} {r : List Char}
    (h : nextIf p l = (none, r)) : r = l := by
  match l with
  | [] => simp [nextIf] at h; simp [h]
  | a :: t =>
    simp only [nextIf] at h
    split at h
    · simp at h
    · obtain ⟨h1, h2⟩ := Prod.mk.injEq .. ▸ h
      exact h2.symm

theorem nextIf_snd_length_le (p : Char → Bool) (l : List Char) :
    (nextIf p l).2.length ≤ l.length := by
  match l with
  | [] => simp [nextIf]
  | a :: t => simp only [nextIf]; split <;> simp

theorem length_dropWhile_le (p : Char → Bool) (l : List Char) :
    (l.dropWhile p).length ≤ l.length := by
  induction l with
  | nil => simp
  | cons a l ih =>
    rw [List.dropWhile_cons]
    split
    · exact Nat.le_succ_of_le ih
    · simp

theorem all_takeWhile (p : Char → Bool) (l : List Char) :
    (l.takeWhile p).all p = true :=
  List.all_eq_true.2 (fun _ hx => List.mem_takeWhile_imp hx)

theorem skipWhitespace_head_not_ws :
    ∀ {cs : List Char} {c : Char} {r : List Char},
      skipWhitespace cs = c :: r → c.isWhitespace = false := by
  intro cs
  induction cs with
  | nil => intro c r h; simp [skipWhitespace] at h
  | cons a l ih =>
    intro c r h
    rw [skipWhitespace, List.dropWhile_cons] at h
    split at h
    · exact ih h
    · next hn =>
      injection h with h1 _
      subst h1
      simpa using hn

theorem skipWhitespace_cons_of_not_ws {c : Char} {r : List Char}
    (h : c.isWhitespace = false) : skipWhitespace (c :: r) = c :: r := by
  rw [skipWhitespace, List.dropWhile_cons_of_neg]
  simp [h]

theorem combineSymbol_snd_le (token : Token) (rest : List Char) :
    (combineSymbol token rest).2.length ≤ rest.length := by
  have key : ∀ (q : Char → Bool) (l : List Char) (oc : Option Char) (r : List Char),
      nextIf q l = (oc, r) → r.length ≤ l.length := by
    intro q l oc r hq
    have hle := nextIf_snd_length_le q l
    rw [hq] at hle
    exact hle
  cases token <;> simp only [combineSymbol] <;> (repeat' split) <;>
    first
    | exact Nat.le_refl _
    | exact key _ _ _ _ (by assumption)
    | exact le_trans (key _ _ _ _ (by assumption)) (key _ _ _ _ (by assumption))

theorem scanFraction_shape (num : List Char) (cs : List Char) :
    ∃ fr rest2, scanFraction num cs = (num ++ fr, rest2) ∧
      specFraction fr ∧ cs = fr ++ rest2 := by
  rcases hq : nextIf (fun c => decide (c = '.')) cs with ⟨oc, csA⟩
  cases oc with
  | none =>
    have hA := nextIf_eq_none hq
    refine ⟨[], csA, ?_, Or.inl rfl, by simp [hA]⟩
    unfold scanFraction
    rw [hq]
    simp
  | some sep =>
    obtain ⟨hcs, hp⟩ := nextIf_eq_some hq
    have hsep : sep = '.' := by simpa using hp
    subst hsep
    refine ⟨'.' :: csA.takeWhile Char.isDigit, csA.dropWhile Char.isDigit, ?_,
      Or.inr ⟨_, rfl, all_takeWhile _ _⟩, ?_⟩
    · unfold scanFraction
      rw [hq]
    · rw [hcs]
      simp [List.takeWhile_append_dropWhile]

theorem scanExponent_shape (num : List Char) (cs : List Char) :
    ∃ ex rest2, scanExponent num cs = (num ++ ex, rest2) ∧
      specExponent ex ∧ cs = ex ++ rest2 := by
  rcases hq : nextIf (fun c => decide (c = 'e' ∨ c = 'E')) cs with ⟨oc, csB⟩
  cases oc with
  | none =>
    have hB := nextIf_eq_none hq
    refine ⟨[], csB, ?_, Or.inl rfl, by simp [hB]⟩
    unfold scanExponent
    rw [hq]
    simp
  | some e =>
    obtain ⟨hcs, hp⟩ := nextIf_eq_some hq
    have he : e = 'e' ∨ e = 'E' := by simpa using hp
    rcases hs : nextIf (fun c => decide (c = '+' ∨ c = '-')) csB with ⟨os, csC⟩
    cases os with
    | none =>
      have hC := nextIf_eq_none hs
      refine ⟨e :: ([] ++ csC.takeWhile Char.isDigit), csC.dropWhile Char.isDigit,
        ?_, Or.inr ⟨e, [], _, rfl, he, Or.inl rfl, all_takeWhile _ _⟩, ?_⟩
      · unfold scanExponent
        rw [hq]
        dsimp only
        rw [hs]
        simp [Option.toList]
      · rw [hcs, hC]
        simp [List.takeWhile_append_dropWhile]
    | some s =>
      obtain ⟨hcsB, hps⟩ := nextIf_eq_some hs
      have hsgn : s = '+' ∨ s = '-' := by simpa using hps
      refine ⟨e :: ([s] ++ csC.takeWhile Char.isDigit), csC.dropWhile Char.isDigit,
        ?_, Or.inr ⟨e, [s], _, rfl, he, by rcases hsgn with h1 | h1 <;> simp [h1],
          all_takeWhile _ _⟩, ?_⟩
      · unfold scanExponent
        rw [hq]
        dsimp only
        rw [hs]
        simp [Option.toList]
      · rw [hcs, hcsB]
        simp [List.takeWhile_append_dropWhile]

theorem scanNumber_shape (c : Char) (rest : List Char) (hc : c.isDigit = true) :
    ∃ ds fr ex rest2,
      ds ≠ [] ∧ ds.all Char.isDigit = true ∧ specFraction fr ∧ specExponent ex ∧
      c :: rest = ds ++ fr ++ ex ++ rest2 ∧
      scanNumber (c :: rest) = (some (Token.number (String.mk (ds ++ fr ++ ex))), rest2) := by
  have hne : ((c :: rest).takeWhile Char.isDigit).isEmpty = false := by
    rw [List.takeWhile_cons_of_pos hc]
    rfl
  obtain ⟨fr, r2, hfr, hfrs, hsplit2⟩ :=
    scanFraction_shape ((c :: rest).takeWhile Char.isDigit)
      ((c :: rest).dropWhile Char.isDigit)
  obtain ⟨ex, r3, hex, hexs, hsplit3⟩ :=
    scanExponent_shape ((c :: rest).takeWhile Char.isDigit ++ fr) r2
  refine ⟨(c :: rest).takeWhile Char.isDigit, fr, ex, r3, ?_, all_takeWhile _ _,
    hfrs, hexs, ?_, ?_⟩
  · rw [List.takeWhile_cons_of_pos hc]
    simp
  · conv_lhs => rw [← List.takeWhile_append_dropWhile Char.isDigit (c :: rest)]
    rw [hsplit2, hsplit3]
    simp [List.append_assoc]
  · simp only [scanNumber]
    rw [hne]
    simp only [Bool.false_eq_true, if_false]
    rw [hfr]
    dsimp only
    rw [hex]

theorem scan_end {cs : List Char} (hws : skipWhitespace cs = []) :
    scan cs = (Except.ok none, []) := by
  simp only [scan]
  rw [hws]

theorem scan_digit {cs : List Char} {c : Char} {rest : List Char}
    (hws : skipWhitespace cs = c :: rest) (hc : c.isDigit = true) :
    scan cs = (Except.ok (scanNumber (c :: rest)).1, (scanNumber (c :: rest)).2) := by
  simp only [scan]
  rw [hws]
  dsimp only
  rw [hc]
  simp

theorem scan_symbol {cs : List Char} {c : Char} {rest : List Char}
    (hws : skipWhitespace cs = c :: rest) (hc : c.isDigit = false) :
    scan cs = (Except.ok (scanSymbol (c :: rest)).1, (scanSymbol (c :: rest)).2) := by
  simp only [scan]
  rw [hws]
  dsimp only
  rw [hc]
  simp

theorem scan_stuck {cs : List Char} {c : Char} {rest : List Char}
    (hws : skipWhitespace cs = c :: rest) (hc : c.isDigit = false)
    (hsym : symbolOf c = none) :
    scan cs = (Except.ok none, c :: rest) := by
  rw [scan_symbol hws hc]
  have hss : scanSymbol (c :: rest) = (none, c :: rest) := by
    simp only [scanSymbol]
    rw [hsym]
  rw [hss]

theorem lexerNext_stuck {cs : List Char} {c : Char} {rest : List Char}
    (hws : skipWhitespace cs = c :: rest) (hc : c.isDigit = false)
    (hsym : symbolOf c = none) :
    lexerNext cs =
      (some (Except.error
        (EasyDbError.parse ("Unexpected character " ++ String.mk [c]))),
        c :: rest) := by
  simp only [lexerNext]
  rw [scan_stuck hws hc hsym]

theorem lexerNext_ok_length {cs : List Char} {t : Token} {cs2 : List Char}
    (h : lexerNext cs = (some (Except.ok t), cs2)) : cs2.length < cs.length := by
  have hwsle : (skipWhitespace cs).length ≤ cs.length := length_dropWhile_le _ _
  rcases hws : skipWhitespace cs with _ | ⟨c, r⟩
  · rw [hws] at hwsle
    simp only [lexerNext] at h
    rw [scan_end hws] at h
    simp at h
  · rw [hws] at hwsle
    by_cases hc : c.isDigit
    · obtain ⟨ds, fr, ex, rest2, hdsne, _, _, _, happ, heqn⟩ := scanNumber_shape c r hc
      simp only [lexerNext] at h
      rw [scan_digit hws hc, heqn] at h
      simp only at h
      obtain ⟨h1, h2⟩ := Prod.mk.injEq .. ▸ h
      have hlen := congrArg List.length happ
      simp only [List.length_cons, List.length_append] at hlen
      have hdp : 0 < ds.length := List.length_pos.mpr hdsne
      rw [← h2]
      simp only [List.length_cons] at hwsle
      omega
    · have hc' : c.isDigit = false := by simpa using hc
      rcases hsym : symbolOf c with _ | tok
      · simp only [lexerNext] at h
        rw [scan_stuck hws hc' hsym] at h
        simp at h
      · simp only [lexerNext] at h
        rw [scan_symbol hws hc'] at h
        have hss : scanSymbol (c :: r) =
            (some (combineSymbol tok r).1, (combineSymbol tok r).2) := by
          simp only [scanSymbol]
          rw [hsym]
        rw [hss] at h
        simp only at h
        obtain ⟨h1, h2⟩ := Prod.mk.injEq .. ▸ h
        have hb := combineSymbol_snd_le tok r
        rw [← h2]
        simp only [List.length_cons] at hwsle
        omega

theorem lexerNext_error_inv {cs : List Char} {e : EasyDbError} {cs2 : List Char}
    (h : lexerNext cs = (some (Except.error e), cs2)) :
    ∃ c r, cs2 = c :: r ∧ skipWhitespace cs = c :: r ∧ c.isDigit = false ∧
      symbolOf c = none ∧
      e = EasyDbError.parse ("Unexpected character " ++ String.mk [c]) := by
  rcases hws : skipWhitespace cs with _ | ⟨c, r⟩
  · simp only [lexerNext] at h
    rw [scan_end hws] at h
    simp at h
  · by_cases hc : c.isDigit
    · obtain ⟨ds, fr, ex, rest2, _, _, _, _, _, heqn⟩ := scanNumber_shape c r hc
      simp only [lexerNext] at h
      rw [scan_digit hws hc, heqn] at h
      simp at h
    · have hc' : c.isDigit = false := by simpa using hc
      rcases hsym : symbolOf c with _ | tok
      · have hstk := lexerNext_stuck hws hc' hsym
        rw [hstk] at h
        obtain ⟨h1, h2⟩ := Prod.mk.injEq .. ▸ h
        injection h1 with h1
        injection h1 with h1
        exact ⟨c, r, h2.symm, rfl, hc', hsym, h1.symm⟩
      · simp only [lexerNext] at h
        rw [scan_symbol hws hc'] at h
        have hss : scanSymbol (c :: r) =
            (some (combineSymbol tok r).1, (combineSymbol tok r).2) := by
          simp only [scanSymbol]
          rw [hsym]
        rw [hss] at h
        simp at h

theorem lexerNext_error_fixpoint {cs : List Char} {e : EasyDbError} {cs2 : List Char}
    (h : lexerNext cs = (some (Except.error e), cs2)) :
    lexerNext cs2 = (some (Except.error e), cs2) := by
  obtain ⟨c, r, hcs2, hws, hc, hsym, he⟩ := lexerNext_error_inv h
  subst hcs2
  have hnw : c.isWhitespace = false := skipWhitespace_head_not_ws hws
  have hws2 : skipWhitespace (c :: r) = c :: r := skipWhitespace_cons_of_not_ws hnw
  rw [he]
  exact lexerNext_stuck hws2 hc hsym

theorem lexerNext_none_inv {cs : List Char} {cs2 : List Char}
    (h : lexerNext cs = (none, cs2)) : cs2 = [] ∧ skipWhitespace cs = [] := by
  rcases hws : skipWhitespace cs with _ | ⟨c, r⟩
  · simp only [lexerNext] at h
    rw [scan_end hws] at h
    simp only at h
    obtain ⟨_, h2⟩ := Prod.mk.injEq .. ▸ h
    exact ⟨h2.symm, rfl⟩
  · by_cases hc : c.isDigit
    · obtain ⟨ds, fr, ex, rest2, _, _, _, _, _, heqn⟩ := scanNumber_shape c r hc
      simp only [lexerNext] at h
      rw [scan_digit hws hc, heqn] at h
      simp at h
    · have hc' : c.isDigit = false := by simpa using hc
      rcases hsym : symbolOf c with _ | tok
      · rw [lexerNext_stuck hws hc' hsym] at h
        simp at h
      · simp only [lexerNext] at h
        rw [scan_symbol hws hc'] at h
        have hss : scanSymbol (c :: r) =
            (some (combineSymbol tok r).1, (combineSymbol tok r).2) := by
          simp only [scanSymbol]
          rw [hsym]
        rw [hss] at h
        simp at h

theorem lexerNext_of_end {cs : List Char} (hws : skipWhitespace cs = []) :
    lexerNext cs = (none, []) := by
  simp only [lexerNext]
  rw [scan_end hws]

/-! ## Helper lemmas about the parser (column-count invariant) -/

theorem createTableLoop_ne_nil {ts : List LexItem} {cols : List Column}
    {ts2 : List LexItem} (h : createTableLoop ts = Except.ok (cols, ts2)) :
    cols ≠ [] := by
  unfold createTableLoop at h
  repeat' split at h
  all_goals first
    | (simp at h; done)
    | (simp only [Except.ok.injEq, Prod.mk.injEq] at h
       obtain ⟨h1, _⟩ := h
       rw [← h1]
       simp)

theorem parseDdlCreateTable_ne_nil {ts : List LexItem} {n : String}
    {cols : List Column} {r : List LexItem}
    (h : parseDdlCreateTable ts = Except.ok (Statement.createTable n cols, r)) :
    cols ≠ [] := by
  unfold parseDdlCreateTable at h
  repeat' split at h
  all_goals first
    | (simp at h; done)
    | (simp only [Except.ok.injEq, Prod.mk.injEq, Statement.createTable.injEq] at h
       obtain ⟨⟨hn, hc⟩, hr⟩ := h
       subst hc
       exact createTableLoop_ne_nil (by assumption))

theorem parseDdl_createTable_ne_nil {ts : List LexItem} {n : String}
    {cols : List Column} {r : List LexItem}
    (h : parseDdl ts = Except.ok (Statement.createTable n cols, r)) :
    cols ≠ [] := by
  unfold parseDdl at h
  repeat' split at h
  all_goals first
    | (simp at h; done)
    | (exact parseDdlCreateTable_ne_nil h)
    | (unfold parseDdlDropTable at h
       split at h <;> simp at h)

theorem parseStatement_createTable_ne_nil {ts : List LexItem} {n : String}
    {cols : List Column} {r : List LexItem}
    (h : parseStatement ts = Except.ok (Statement.createTable n cols, r)) :
    cols ≠ [] := by
  unfold parseStatement at h
  repeat' split at h
  all_goals first
    | (simp at h; done)
    | (exact parseDdl_createTable_ne_nil h)

theorem parseTokens_createTable_ne_nil {ts : List LexItem} {n : String}
    {cols : List Column}
    (h : parseTokens ts = Except.ok (Statement.createTable n cols)) :
    cols ≠ [] := by
  simp only [parseTokens] at h
  repeat' split at h
  all_goals first
    | (simp at h; done)
    | (simp only [Except.ok.injEq] at h
       subst h
       exact parseStatement_createTable_ne_nil (by assumption))

/-! ## Claims -/

/-- Claim C1 (code bug evidence): the claim says an alphabetic lookahead
makes the lexer scan a maximal identifier run and match it case-insensitively
against the full keyword vocabulary.  The code does neither: the
`scan_ident` dispatch arm of `Lexer::scan` is commented out, so an
alphabetic character falls through the symbol scan and the lexer yields a
Parse error naming it while leaving it unconsumed; and `Keyword::from_str`
recognizes only `AND`, returning `None` for every other vocabulary word. -/
theorem c1_alphabetic_input_is_lexical_error :
    lexerNext ['a'] =
      (some (Except.error (EasyDbError.parse "Unexpected character a")), ['a'])
    ∧ (lexerNext "CREATE TABLE t".data).1 =
        some (Except.error (EasyDbError.parse "Unexpected character C"))
    ∧ Keyword.fromStr "CREATE" = none
    ∧ Keyword.fromStr "table" = none
    ∧ Keyword.fromStr "Primary" = none
    ∧ Keyword.fromStr "and" = some Keyword.and := by
  refine ⟨rfl, rfl, by decide, by decide, by decide, by decide⟩

/-- Claim C2 (code bug evidence): the claim says `DROP TABLE t` parses to
`DropTable("t")` because `parse_statement` routes a leading `DROP` keyword
into the DDL path.  In the code `parse_statement` dispatches only on
`CREATE`; a leading `DROP` keyword token falls to the `Unexpected token`
arm (making `parse_ddl`'s own `Drop` arm and `parse_ddl_drop_table`
unreachable), and end to end the lexer cannot even tokenize the word
`DROP`. -/
theorem c2_drop_table_is_rejected :
    parseTokens
        [Except.ok (Token.keyword Keyword.drop),
          Except.ok (Token.keyword Keyword.table),
          Except.ok (Token.ident "t")] =
      Except.error (EasyDbError.parse "Unexpected token DROP")
    ∧ parse "DROP TABLE t" =
        Except.error (EasyDbError.parse "Unexpected character D")
    ∧ parseDdlDropTable [Except.ok (Token.ident "t")] =
        Except.ok (Statement.dropTable "t", []) := by
  refine ⟨rfl, rfl, rfl⟩

/-- Claim C3 (code bug evidence): the claim says a quote lookahead makes the
lexer scan a string literal and emit `String(text)`.  In the code the
`scan_string` dispatch arm of `Lexer::scan` is commented out, so a quote
falls through the symbol scan and the lexer yields a Parse error naming the
quote character, leaving it unconsumed. -/
theorem c3_quote_input_is_lexical_error :
    lexerNext "'abc'".data =
      (some (Except.error
        (EasyDbError.parse ("Unexpected character " ++ String.mk ['\'']))),
        "'abc'".data)
    ∧ (lexerNext "''".data).1 =
        some (Except.error
          (EasyDbError.parse ("Unexpected character " ++ String.mk ['\'']))) := by
  refine ⟨rfl, rfl⟩

/-- Claim C5: within one column definition, setting the nullable tri-state
to both explicit states is a Value error regardless of order: with any
column name, any datatype keyword and any following items, both
`... NOT NULL NULL ...` and `... NULL NOT NULL ...` make `parse_ddl_column`
fail with the Value (semantic) error, not a syntax error. -/
theorem c5_conflicting_nullability_is_value_error
    (name : String) (k : Keyword) (dt : DataType) (rest : List LexItem)
    (hk : datatypeOf (Token.keyword k) = some dt) :
    parseDdlColumn
        (Except.ok (Token.ident name) :: Except.ok (Token.keyword k) ::
          Except.ok (Token.keyword Keyword.not) ::
          Except.ok (Token.keyword Keyword.null) ::
          Except.ok (Token.keyword Keyword.null) :: rest) =
      Except.error (EasyDbError.value
        ("Column " ++ name ++ " can't be both not nullable and nullable"))
    ∧ parseDdlColumn
        (Except.ok (Token.ident name) :: Except.ok (Token.keyword k) ::
          Except.ok (Token.keyword Keyword.null) ::
          Except.ok (Token.keyword Keyword.not) ::
          Except.ok (Token.keyword Keyword.null) :: rest) =
      Except.error (EasyDbError.value
        ("Column " ++ name ++ " can't be both not nullable and nullable")) := by
  constructor <;>
    simp [parseDdlColumn, pnextIdent, pnext, hk, columnLoop]

/-- Claim C5, witness: the conflict errors at the concrete column
`a INT NOT NULL NULL` and `a INT NULL NOT NULL`. -/
theorem c5_conflicting_nullability_witness :
    parseDdlColumn
        (Except.ok (Token.ident "a") :: Except.ok (Token.keyword Keyword.int) ::
          Except.ok (Token.keyword Keyword.not) ::
          Except.ok (Token.keyword Keyword.null) ::
          Except.ok (Token.keyword Keyword.null) :: []) =
      Except.error (EasyDbError.value
        ("Column " ++ "a" ++ " can't be both not nullable and nullable"))
    ∧ parseDdlColumn
        (Except.ok (Token.ident "a") :: Except.ok (Token.keyword Keyword.int) ::
          Except.ok (Token.keyword Keyword.null) ::
          Except.ok (Token.keyword Keyword.not) ::
          Except.ok (Token.keyword Keyword.null) :: []) =
      Except.error (EasyDbError.value
        ("Column " ++ "a" ++ " can't be both not nullable and nullable")) :=
  c5_conflicting_nullability_is_value_error "a" Keyword.int DataType.integer [] rfl

/-- Claim C9: the `DEFAULT` keyword is never silently ignored: whenever the
column-constraint loop encounters a `DEFAULT` keyword token (its handling
arm is commented out in the source, so it falls to the catch-all), the loop
— and hence `parse_ddl_column` — returns an `Unexpected keyword` Parse
error, never an `Ok` column that dropped the keyword. -/
theorem c9_default_keyword_is_an_error :
    (∀ (col : Column) (rest : List LexItem),
      columnLoop col (Except.ok (Token.keyword Keyword.default) :: rest) =
        Except.error
          (EasyDbError.parse ("Unexpected keyword " ++ Keyword.toStr Keyword.default)))
    ∧ (∀ (name : String) (k : Keyword) (dt : DataType) (rest : List LexItem),
        datatypeOf (Token.keyword k) = some dt →
        parseDdlColumn
            (Except.ok (Token.ident name) :: Except.ok (Token.keyword k) ::
              Except.ok (Token.keyword Keyword.default) :: rest) =
          Except.error
            (EasyDbError.parse
              ("Unexpected keyword " ++ Keyword.toStr Keyword.default))) := by
  constructor
  · intro col rest
    rfl
  · intro name k dt rest hk
    simp [parseDdlColumn, pnextIdent, pnext, hk, columnLoop]

/-- Claim C9, witness: the `DEFAULT` rejection at the concrete column
`a INT DEFAULT`. -/
theorem c9_default_keyword_witness :
    parseDdlColumn
        (Except.ok (Token.ident "a") :: Except.ok (Token.keyword Keyword.int) ::
          Except.ok (Token.keyword Keyword.default) :: []) =
      Except.error
        (EasyDbError.parse ("Unexpected keyword " ++ Keyword.toStr Keyword.default)) :=
  c9_default_keyword_is_an_error.2 "a" Keyword.int DataType.integer [] rfl

/-- Claim C10: the numeric scan accepts a decimal point or exponent marker
followed by zero digits: `1.`, `7e` and `3.e+` each lex to a single `Number`
token carrying exactly that text, trailing `.` / `e` / sign included. -/
theorem c10_number_accepts_trailing_markers :
    tokenize "1." = [Except.ok (Token.number "1.")]
    ∧ tokenize "7e" = [Except.ok (Token.number "7e")]
    ∧ tokenize "3.e+" = [Except.ok (Token.number "3.e+")] := by
  refine ⟨rfl, rfl, rfl⟩

/-- Claim C4, counterexample: on the input `@` the lexer iteration never
returns `None`: the first draw yields a Parse error without advancing the
state, so every subsequent draw repeats it and end of input is never
reached — the item sequence is not finite. -/
theorem c4_lexer_never_reaches_end_on_bad_char : ¬ lexReachesEnd ['@'] := by
  have hstep : lexerNext ['@'] =
      (some (Except.error (EasyDbError.parse "Unexpected character @")), ['@']) := rfl
  intro hre
  obtain ⟨n, hn⟩ := hre
  have hstate : ∀ m, lexStateN ['@'] m = ['@'] := by
    intro m
    induction m with
    | zero => rfl
    | succ m ih => simp only [lexStateN, ih, hstep]
  rw [hstate n, hstep] at hn
  simp at hn

/-- Claim C4, amended: every `Ok` token the lexer yields strictly consumes
input, so only finitely many `Ok` items are ever produced; a `None` is
returned exactly when (after the whitespace skip) the input is exhausted;
but once a lexical error is produced the lexer yields that same error on
every subsequent draw without advancing, so on such inputs the iteration
never reaches `None`; a parse call nevertheless always terminates with a
`Statement` or an `Error`, because the parser aborts at the first error
item. -/
theorem c4_lexer_progress_and_parse_total :
    (∀ (cs : List Char) (t : Token) (cs2 : List Char),
        lexerNext cs = (some (Except.ok t), cs2) → cs2.length < cs.length)
    ∧ (∀ (cs : List Char) (e : EasyDbError) (cs2 : List Char),
        lexerNext cs = (some (Except.error e), cs2) →
          lexerNext cs2 = (some (Except.error e), cs2))
    ∧ (∀ (cs cs2 : List Char), lexerNext cs = (none, cs2) →
        cs2 = [] ∧ skipWhitespace cs = [])
    ∧ (∀ cs : List Char, skipWhitespace cs = [] → lexerNext cs = (none, []))
    ∧ (∀ s : String,
        (∃ st, parse s = Except.ok st) ∨ (∃ e, parse s = Except.error e)) := by
  refine ⟨?_, ?_, ?_, ?_, ?_⟩
  · intro cs t cs2 h
    exact lexerNext_ok_length h
  · intro cs e cs2 h
    exact lexerNext_error_fixpoint h
  · intro cs cs2 h
    exact lexerNext_none_inv h
  · intro cs h
    exact lexerNext_of_end h
  · intro s
    cases hp : parse s with
    | ok st => exact Or.inl ⟨st, rfl⟩
    | error e => exact Or.inr ⟨e, rfl⟩

/-- Claim C4, witness: the progress bound at the concrete input `1`, the
error fixpoint at the concrete input `@`, and the end-of-input inversion at
the empty input. -/
theorem c4_lexer_progress_witness :
    (([] : List Char).length < (['1'] : List Char).length)
    ∧ lexerNext ['@'] =
        (some (Except.error
          (EasyDbError.parse ("Unexpected character " ++ String.mk ['@']))), ['@'])
    ∧ (([] : List Char) = [] ∧ skipWhitespace ([] : List Char) = []) :=
  ⟨c4_lexer_progress_and_parse_total.1 ['1'] (Token.number "1") [] (by rfl),
    c4_lexer_progress_and_parse_total.2.1 ['@']
      (EasyDbError.parse ("Unexpected character " ++ String.mk ['@'])) ['@'] (by rfl),
    c4_lexer_progress_and_parse_total.2.2.1 [] [] (by rfl)⟩

/-- Claim C6: every `CreateTable` statement the parser returns has at least
one column — over every possible token stream, an `Ok(CreateTable)` with an
empty column list is unreachable — and the zero-column token stream of
`CREATE TABLE t ()` is rejected with a Parse error (the column loop demands
at least one column name and finds `)` instead). -/
theorem c6_create_table_has_columns :
    (∀ (ts : List LexItem) (n : String) (cols : List Column),
        parseTokens ts = Except.ok (Statement.createTable n cols) → cols ≠ [])
    ∧ parseTokens
        [Except.ok (Token.keyword Keyword.create),
          Except.ok (Token.keyword Keyword.table),
          Except.ok (Token.ident "t"), Except.ok Token.openParen,
          Except.ok Token.closeParen] =
      Except.error (EasyDbError.parse "Expected identifier, got )") := by
  refine ⟨fun _ _ _ h => parseTokens_createTable_ne_nil h, ?_⟩
  simp [parseTokens, parseStatement, ppeek, parseDdl, pnext, parseDdlCreateTable,
    pnextIdent, pnextExpect, createTableLoop, parseDdlColumn, datatypeOf,
    columnLoop, pnextIf, pnextExpectEnd, Token.display, Keyword.toStr]

/-- Claim C6, witness: the invariant applied to the concrete token stream of
`CREATE TABLE t (a INT)`, whose single parsed column is nonempty. -/
theorem c6_create_table_witness :
    ([⟨"a", DataType.integer, false, none, false, false, none⟩] : List Column) ≠ [] :=
  c6_create_table_has_columns.1
    [Except.ok (Token.keyword Keyword.create), Except.ok (Token.keyword Keyword.table),
      Except.ok (Token.ident "t"), Except.ok Token.openParen,
      Except.ok (Token.ident "a"), Except.ok (Token.keyword Keyword.int),
      Except.ok Token.closeParen]
    "t" [⟨"a", DataType.integer, false, none, false, false, none⟩]
    (by simp [parseTokens, parseStatement, ppeek, parseDdl, pnext,
      parseDdlCreateTable, pnextIdent, pnextExpect, createTableLoop,
      parseDdlColumn, datatypeOf, columnLoop, pnextIf, pnextExpectEnd,
      Token.display, Keyword.toStr])

/-- Claim C7: whenever the next non-whitespace character is a decimal digit,
the lexer draw emits a single `Number` token: a nonempty digit run, an
optional `.` with a digit run, an optional `e`/`E` with an optional sign and
a digit run, carrying exactly the matched text (concatenating the token text
with the leftover state recovers the input); in particular `1.5e-3` lexes to
the single token `Number("1.5e-3")`. -/
theorem c7_digit_lookahead_scans_number :
    (∀ (cs : List Char) (c : Char) (rest : List Char),
        skipWhitespace cs = c :: rest → c.isDigit = true → numberScanOk cs)
    ∧ tokenize "1.5e-3" = [Except.ok (Token.number "1.5e-3")] := by
  constructor
  · intro cs c rest hws hc
    obtain ⟨ds, fr, ex, rest2, h1, h2, h3, h4, h5, h6⟩ := scanNumber_shape c rest hc
    refine ⟨ds, fr, ex, rest2, h1, h2, h3, h4, ?_, ?_⟩
    · rw [hws, h5]
    · simp only [lexerNext]
      rw [scan_digit hws hc, h6]
  · rfl

/-- Claim C7, witness: the number-scan contract at the concrete input `5`. -/
theorem c7_digit_lookahead_witness : numberScanOk ['5'] :=
  c7_digit_lookahead_scans_number.1 ['5'] '5' [] rfl rfl

/-- Claim C8: whenever the next non-whitespace character matches no token
class of the lexer (it is not a digit and not a symbol character, like `@`),
the draw yields a Parse error naming exactly that character, and the state
still has the character at its front — the lexer does not skip past it. -/
theorem c8_unrecognized_character_error (cs : List Char) (c : Char)
    (rest : List Char) (hws : skipWhitespace cs = c :: rest)
    (hc : c.isDigit = false) (hsym : symbolOf c = none) :
    lexerNext cs =
      (some (Except.error
        (EasyDbError.parse ("Unexpected character " ++ String.mk [c]))),
        c :: rest) :=
  lexerNext_stuck hws hc hsym

/-- Claim C8, witness: the unrecognized-character error at the concrete
input `@`. -/
theorem c8_unrecognized_character_witness :
    lexerNext ['@'] =
      (some (Except.error
        (EasyDbError.parse ("Unexpected character " ++ String.mk ['@']))), ['@']) :=
  c8_unrecognized_character_error ['@'] '@' [] rfl rfl rfl

end EasyDb
